import Mathlib

/-!
Verification of the natural-language specification of `solargeo` against its
source.  The repository's `src/solargeo/AVG_EL.py` defines `AVG_EL`, which
averages the solar elevation angle over each sampling interval of a time
series.  The instantaneous solar-position routine `SUNAE` lives in the
`solargeometry` extension module, which is not part of `src/`; it is modelled
from the spec below.

Embedding conventions:
* pandas timestamps and timedeltas are integer nanoseconds (`ℤ`), exactly as
  pandas stores them;
* latitude and longitude are `ℝ`, the timezone offset is `ℚ`;
* Python exceptions are an explicit `PyErr` value returned through `Except`;
* a pandas Series appears as a `List` of (index, value) pairs, and a float
  `NaN` entry as `Option.none`.
-/

namespace Solargeo

/-- Nanoseconds per second (pandas timestamps/timedeltas are ns-valued). -/
def NS_PER_SEC : ℤ := 1000000000

/-- Nanoseconds per day. -/
def NS_PER_DAY : ℤ := 86400 * NS_PER_SEC

/-- Nanoseconds in the fixed `'5Min'` fine step of line 53. -/
def FIVE_MIN_NS : ℤ := 300 * NS_PER_SEC

/-- Python exceptions that `AVG_EL` can surface, with their messages. -/
inductive PyErr where
  | indexError : String → PyErr
  | typeError : String → PyErr
  | valueError : String → PyErr
deriving DecidableEq, Repr

/-- Python sequence indexing `l[i]` on a timestamp vector: a negative index
counts from the end, an out-of-bounds access raises `IndexError`. -/
def pyGet (l : List ℤ) (i : ℤ) : Except PyErr ℤ :=
  let j : ℤ := if i < 0 then i + l.length else i
  if 0 ≤ j ∧ j.toNat < l.length then .ok (l.getD j.toNat 0)
  else .error (.indexError "index out of range")

/-- Days-since-epoch serial of the proleptic Gregorian date (y, m, d)
(standard civil-calendar conversion, as used by pandas timestamps). -/
def daysFromCivil (y m d : ℤ) : ℤ :=
  let y2 := if m ≤ 2 then y - 1 else y
  let era := y2 / 400
  let yoe := y2 - era * 400
  let mp := (m + 9) % 12
  let doy := (153 * mp + 2) / 5 + d - 1
  let doe := yoe * 365 + yoe / 4 - yoe / 100 + doy
  era * 146097 + doe - 719468

/-- Gregorian year containing day-serial `z` (inverse direction of
`daysFromCivil`). -/
def civilYearFromDays (z : ℤ) : ℤ :=
  let z2 := z + 719468
  let era := z2 / 146097
  let doe := z2 - era * 146097
  let yoe := (doe - doe / 1460 + doe / 36524 - doe / 146096) / 365
  let y := yoe + era * 400
  let doy := doe - (365 * yoe + yoe / 4 - yoe / 100)
  let mp := (5 * doy + 2) / 153
  let m := mp + (if mp < 10 then 3 else -9)
  if m ≤ 2 then y + 1 else y

/-- Day-serial of a ns timestamp. -/
def tsDays (t : ℤ) : ℤ := t / NS_PER_DAY

/-- pandas `t.year`. -/
def tsYear (t : ℤ) : ℤ := civilYearFromDays (tsDays t)

/-- pandas `t.dayofyear` (1-based ordinal day of the year). -/
def tsDayOfYear (t : ℤ) : ℤ := tsDays t - daysFromCivil (tsYear t) 1 1 + 1

/-- Second of the day of a ns timestamp. -/
def tsSecOfDay (t : ℤ) : ℤ := (t / NS_PER_SEC) % 86400

/-- pandas `t.hour`. -/
def tsHour (t : ℤ) : ℤ := tsSecOfDay t / 3600

/-- pandas `t.minute`. -/
def tsMinute (t : ℤ) : ℤ := (tsSecOfDay t % 3600) / 60

/-- Line 58's `t_fine.hour + t_fine.minute/60.` (seconds are dropped). -/
def tsHourMin (t : ℤ) : ℚ := (tsHour t : ℚ) + (tsMinute t : ℚ) / 60

/-- pandas `Timedelta.seconds`: the seconds-of-day component, i.e. the whole
days are discarded (matches Python's `timedelta` normalisation, also for
negative timedeltas). -/
def tdSeconds (dt : ℤ) : ℤ := (dt / NS_PER_SEC) % 86400

/-- `dt/2` on a timedelta (exact whenever `dt` is an even number of ns;
the sub-ns rounding of pandas never arises in this development). -/
def tdHalf (dt : ℤ) : ℤ := dt / 2

/-- `pd.date_range(start, end, freq)` for a positive fixed frequency of
`step` ns: the points `start + k*step` not exceeding `end`. -/
def date_range (s e step : ℤ) : List ℤ :=
  (List.range ((e - s) / step + 1).toNat).map (fun (k : ℕ) => s + (k : ℤ) * step)

/-- Midnight of the day containing `t` (pandas `Timestamp.normalize`). -/
def dayFloor (t : ℤ) : ℤ := (t / NS_PER_DAY) * NS_PER_DAY

/-- First left bin edge the pandas `TimeGrouper` uses for a second-based
rule of width `w` ns: the first point snapped down onto the grid of
multiples of `w` anchored at midnight of its own day. -/
def binStart (t0 w : ℤ) : ℤ := t0 - (t0 - dayFloor t0) % w

/-- Number of resampling bins covering the points from `t0` to `tLast`. -/
def binCount (t0 tLast w : ℤ) : ℤ := (tLast - binStart t0 w) / w + 1

/-- Left edges of the resampling bins (`label='left'`). -/
def binLabels (t0 tLast w : ℤ) : List ℤ :=
  (List.range (binCount t0 tLast w).toNat).map
    (fun (k : ℕ) => binStart t0 w + (k : ℤ) * w)

/-- Arithmetic mean of `f` over the points of `pts` falling inside the
half-open bin `[lo, lo+w)`; `none` is the `NaN` of an empty bin. -/
noncomputable def binMean (pts : List ℤ) (f : ℤ → ℝ) (lo w : ℤ) : Option ℝ :=
  let members := pts.filter (fun t => decide (lo ≤ t) && decide (t < lo + w))
  if members.isEmpty then none
  else some ((members.map f).sum / (members.length : ℝ))

/-- Line 65's `mew_fine.resample(str(dt.seconds)+'S', how='mean',
label='left')` applied to the series with index `pts` and values `f`:
bins of `wSecs` seconds anchored as pandas anchors second-based rules,
labelled by their left edge, `NaN` (`none`) on empty bins.  An empty
frame resamples to an empty frame. -/
noncomputable def resampleMeanLeft (pts : List ℤ) (f : ℤ → ℝ) (wSecs : ℤ) :
    List (ℤ × Option ℝ) :=
  match pts.head?, pts.getLast? with
  | some t0, some tLast =>
    let w := wSecs * NS_PER_SEC
    (binLabels t0 tLast w).map (fun lo => (lo, binMean pts f lo w))
  | _, _ => []

/-- Modelled from the spec: `SUNAE` itself is the `solargeometry` extension
module, which is not under `src/`.  Spec section 4.1 describes it as a pure
closed-form map from (year, day-of-year, decimal hour, latitude, longitude)
to solar angles: a solar declination obtained from the day number, a local
hour angle obtained from the decimal hour and the longitude, and the
elevation given by the spherical-trigonometry relation
`sin el = sin lat * sin dec + cos lat * cos dec * cos H`, returned in
degrees (so always inside [-90, 90], as spec section 8 states). -/
noncomputable def SUNAE_el (yyyy jday : ℤ) (hh : ℚ) (lat lon : ℝ) : ℝ :=
  let _ := yyyy
  let d2r : ℝ := Real.pi / 180
  let dec : ℝ := -(23.44 * d2r) * Real.cos (2 * Real.pi * ((jday : ℝ) + 10) / 365.25)
  let H : ℝ := ((hh : ℝ) - 12) * (15 * d2r) - lon * d2r
  Real.arcsin (Real.sin (lat * d2r) * Real.sin dec +
    Real.cos (lat * d2r) * Real.cos dec * Real.cos H) / d2r

/-- Lines 56-60 pointwise: the sine of the `SUNAE` elevation at fine
timestamp `t`, with the timezone offset added to the decimal hour
(`np.sin(EL_fine*np.pi/180.)` applied to
`SUNAE(t.year, t.dayofyear, t.hour + t.minute/60 + tz, lat, lon)[0]`). -/
noncomputable def sinElAt (lat lon : ℝ) (tz : ℚ) (t : ℤ) : ℝ :=
  Real.sin (SUNAE_el (tsYear t) (tsDayOfYear t) (tsHourMin t + tz) lat lon
    * Real.pi / 180)

/-- Lines 42-47: the `REF` dispatch.  `'END'` subtracts the step from every
timestamp, `'MID'` subtracts half the step.  Every other `REF` — including
`'BEG'` — falls into the `elif` of line 46, whose guard
`REF!='BEG' & REF!='MID' & REF!='END'` evaluates `'BEG' & REF` first
(`&` binds tighter than `!=` in Python), which raises `TypeError` for
strings; the `ValueError` of line 47 is unreachable. -/
def refShiftE (TIME : List ℤ) (dt : ℤ) (REF : String) : Except PyErr (List ℤ) :=
  if REF = "END" then .ok (TIME.map (fun t => t - dt))
  else if REF = "MID" then .ok (TIME.map (fun t => t - tdHalf dt))
  else .error (.typeError "unsupported operand type(s) for &: str and str")

/-- Lines 41-66 of `AVG_EL`: everything up to (and including) the
construction of the series `EL` of line 66, i.e. the result before the
horizon clamp of line 67.  A `none` value is a `NaN` coming from an empty
resampling bin. -/
noncomputable def AVG_EL_raw (TIME : List ℤ) (lat lon : ℝ) (tz : ℚ)
    (REF : String) : Except PyErr (List (ℤ × Option ℝ)) := do
  let t1 ← pyGet TIME 1
  let t0 ← pyGet TIME 0
  let dt := t1 - t0
  let TIME2 ← refShiftE TIME dt REF
  let tb ← pyGet TIME2 0
  let te ← pyGet TIME2 (-1)
  let tFine := date_range tb te FIVE_MIN_NS
  let w := tdSeconds dt
  if w = 0 then
    .error (.valueError "cannot resample with a zero-frequency rule")
  else
    pure ((resampleMeanLeft tFine (sinElAt lat lon tz) w).map
      (fun p => (p.1, p.2.map (fun m => Real.arcsin m * 180 / Real.pi))))

/-- Line 67, `EL.where(EL>0, 0)`, pointwise: keep a value strictly above
zero, replace everything else by `0`.  A float `NaN` compares `False`
against `0`, so `NaN` entries also become `0`. -/
noncomputable def clampEl : Option ℝ → ℝ
  | some v => if 0 < v then v else 0
  | none => 0

/-- `AVG_EL` of `src/solargeo/AVG_EL.py` (lines 5-68): the horizon-clamped
average elevation series, or the Python exception the call raises. -/
noncomputable def AVG_EL (TIME : List ℤ) (lat lon : ℝ) (tz : ℚ)
    (REF : String) : Except PyErr (List (ℤ × ℝ)) :=
  (AVG_EL_raw TIME lat lon tz REF).map
    (List.map (fun p => (p.1, clampEl p.2)))

/-- Whether a call returned normally (`true`) or raised (`false`). -/
def isOkB {α : Type} (r : Except PyErr α) : Bool :=
  match r with
  | .ok _ => true
  | .error _ => false

/-- The list a successful run returns, `[]` on an exception. -/
def okOrNil {α : Type} (r : Except PyErr (List α)) : List α :=
  match r with
  | .ok l => l
  | .error _ => []

/-- Index labels of a successful run. -/
def okLabels {β : Type} (r : Except PyErr (List (ℤ × β))) : List ℤ :=
  (okOrNil r).map Prod.fst

/-- Values of a successful `AVG_EL` run. -/
def elVals (r : Except PyErr (List (ℤ × ℝ))) : List ℝ :=
  (okOrNil r).map Prod.snd

/-- Values of a successful `AVG_EL_raw` run (`none` = `NaN`). -/
def rawVals (r : Except PyErr (List (ℤ × Option ℝ))) : List (Option ℝ) :=
  (okOrNil r).map Prod.snd

/-- A 3-hourly time series of `N` samples starting at `t0` ns. -/
def prog3h (t0 : ℤ) (N : ℕ) : List ℤ :=
  (List.range N).map (fun (k : ℕ) => t0 + (k : ℤ) * (10800 * NS_PER_SEC))

/-- Claim C6's description of the averaging step, stated over the fine
samples directly: group the fine values into bins of width `W`
(anchored, like the implementation, on the grid of multiples of `W` from
midnight of the first sample's day), label each bin by its left edge, and
take the arithmetic mean within each bin. -/
noncomputable def specGroupMean (fine : List ℤ) (g : ℤ → ℝ) (W : ℤ) :
    List (ℤ × Option ℝ) :=
  match fine.head?, fine.getLast? with
  | some a, some b =>
    let org := dayFloor a
    let k0 := (a - org) / W
    let kN := (b - org) / W
    (List.range (kN - k0 + 1).toNat).map (fun (j : ℕ) =>
      let members := fine.filter (fun t => decide ((t - org) / W = k0 + (j : ℤ)))
      (org + (k0 + (j : ℤ)) * W,
        if members.isEmpty then none
        else some ((members.map g).sum / (members.length : ℝ))))
  | _, _ => []

/-- Claim C6's description of the value `AVG_EL` computes before the
horizon clamp, parameterised by the bin width `W`: sample the sine of the
`SUNAE` elevation at a fixed 5-minute spacing spanning the shifted
timestamps, group into bins of width `W` labelled by their left edge,
average, and convert back through the inverse sine (in degrees). -/
noncomputable def claimC6formula (TIME : List ℤ) (lat lon : ℝ) (tz : ℚ)
    (REF : String) (W : ℤ) : List (ℤ × Option ℝ) :=
  let t0 := TIME.getD 0 0
  let dt := TIME.getD 1 0 - t0
  let s := if REF = "END" then dt else if REF = "MID" then tdHalf dt else 0
  let fine := date_range (t0 - s) (TIME.getD (TIME.length - 1) 0 - s) FIVE_MIN_NS
  (specGroupMean fine (sinElAt lat lon tz) W).map
    (fun p => (p.1, p.2.map (fun m => Real.arcsin m * 180 / Real.pi)))

/-- Claim C6 as stated: the bins have the width of the *original time
step* `TIME[1] - TIME[0]`. -/
noncomputable def claimC6stated (TIME : List ℤ) (lat lon : ℝ) (tz : ℚ)
    (REF : String) : List (ℤ × Option ℝ) :=
  claimC6formula TIME lat lon tz REF (TIME.getD 1 0 - TIME.getD 0 0)

/-- Claim C6 amended: the bins have width `dt.seconds` — the seconds-of-day
field of the step, discarding any whole-day component. -/
noncomputable def claimC6amended (TIME : List ℤ) (lat lon : ℝ) (tz : ℚ)
    (REF : String) : List (ℤ × Option ℝ) :=
  claimC6formula TIME lat lon tz REF
    (tdSeconds (TIME.getD 1 0 - TIME.getD 0 0) * NS_PER_SEC)

/-- The computation of lines 41-66 as a function of the only three
timestamps it reads: `TIME[0]`, `TIME[1]` and `TIME[-1]`. -/
noncomputable def AVG_EL_core (t0 t1 tl : ℤ) (lat lon : ℝ) (tz : ℚ)
    (REF : String) : Except PyErr (List (ℤ × Option ℝ)) :=
  let dt := t1 - t0
  let s := if REF = "END" then dt else tdHalf dt
  if REF = "END" ∨ REF = "MID" then
    if tdSeconds dt = 0 then
      .error (.valueError "cannot resample with a zero-frequency rule")
    else
      .ok ((resampleMeanLeft (date_range (t0 - s) (tl - s) FIVE_MIN_NS)
          (sinElAt lat lon tz) (tdSeconds dt)).map
        (fun p => (p.1, p.2.map (fun m => Real.arcsin m * 180 / Real.pi))))
  else .error (.typeError "unsupported operand type(s) for &: str and str")

/-- The shift a returning `REF` applies to every timestamp (the step for
`'END'`, half of it for `'MID'`). -/
def refShiftVal (REF : String) (dt : ℤ) : ℤ :=
  if REF = "END" then dt else tdHalf dt

/-!  ## Helper lemmas  -/

theorem exbind_ok {α β : Type} (a : α) (f : α → Except PyErr β) :
    (Except.ok a >>= f) = f a := rfl

theorem exbind_err {α β : Type} (e : PyErr) (f : α → Except PyErr β) :
    ((Except.error e : Except PyErr α) >>= f) = Except.error e := rfl

theorem expure_eq_ok {α : Type} (a : α) :
    (pure a : Except PyErr α) = Except.ok a := rfl

theorem pyGet_zero (l : List ℤ) (h : 1 ≤ l.length) :
    pyGet l 0 = .ok (l.getD 0 0) := by
  have hneg : ¬ ((0 : ℤ) < 0) := by omega
  simp only [pyGet, if_neg hneg]
  rw [if_pos ⟨le_refl 0, by omega⟩]
  rfl

theorem pyGet_one (l : List ℤ) (h : 2 ≤ l.length) :
    pyGet l 1 = .ok (l.getD 1 0) := by
  have hneg : ¬ ((1 : ℤ) < 0) := by omega
  simp only [pyGet, if_neg hneg]
  rw [if_pos ⟨by omega, by omega⟩]
  rfl

theorem pyGet_neg_one (l : List ℤ) (h : 1 ≤ l.length) :
    pyGet l (-1) = .ok (l.getD (l.length - 1) 0) := by
  have hpos : ((-1 : ℤ) < 0) := by omega
  have hidx : ((-1 : ℤ) + l.length).toNat = l.length - 1 := by omega
  simp only [pyGet, if_pos hpos, hidx]
  rw [if_pos ⟨by omega, by omega⟩]

theorem getD_map_sub (l : List ℤ) (c : ℤ) (i : ℕ) (h : i < l.length) :
    (l.map (fun t => t - c)).getD i 0 = l.getD i 0 - c := by
  rw [List.getD_eq_getElem _ _ (by simpa using h), List.getD_eq_getElem l _ h,
    List.getElem_map]

theorem pyGet_map_sub_zero (l : List ℤ) (c : ℤ) (h : 1 ≤ l.length) :
    pyGet (l.map (fun t => t - c)) 0 = .ok (l.getD 0 0 - c) := by
  rw [pyGet_zero _ (by simpa using h), getD_map_sub l c 0 (by omega)]

theorem pyGet_map_sub_last (l : List ℤ) (c : ℤ) (h : 1 ≤ l.length) :
    pyGet (l.map (fun t => t - c)) (-1) = .ok (l.getD (l.length - 1) 0 - c) := by
  rw [pyGet_neg_one _ (by simpa using h)]
  rw [List.length_map, getD_map_sub l c (l.length - 1) (by omega)]

/-- `AVG_EL_raw` reads its time series only through the first, second and
last entries. -/
theorem avg_el_raw_eq_core (TIME : List ℤ) (lat lon : ℝ) (tz : ℚ)
    (REF : String) (h : 2 ≤ TIME.length) :
    AVG_EL_raw TIME lat lon tz REF =
      AVG_EL_core (TIME.getD 0 0) (TIME.getD 1 0) (TIME.getD (TIME.length - 1) 0)
        lat lon tz REF := by
  have h1 : 1 ≤ TIME.length := by omega
  by_cases hE : REF = "END"
  · subst hE
    simp [AVG_EL_raw, AVG_EL_core, refShiftE, pyGet_one TIME h, pyGet_zero TIME h1,
      exbind_ok, expure_eq_ok, pyGet_map_sub_zero TIME _ h1, pyGet_map_sub_last TIME _ h1]
  · by_cases hM : REF = "MID"
    · subst hM
      simp [AVG_EL_raw, AVG_EL_core, refShiftE, pyGet_one TIME h, pyGet_zero TIME h1,
        exbind_ok, expure_eq_ok, pyGet_map_sub_zero TIME _ h1, pyGet_map_sub_last TIME _ h1]
    · simp [AVG_EL_raw, AVG_EL_core, refShiftE, pyGet_one TIME h, pyGet_zero TIME h1,
        exbind_ok, exbind_err, hE, hM]

theorem ediv_eq_iff_of_pos (x W k : ℤ) (hW : 0 < W) :
    x / W = k ↔ k * W ≤ x ∧ x < (k + 1) * W := by
  have hd : W * (x / W) + x % W = x := Int.ediv_add_emod x W
  have hm0 : 0 ≤ x % W := Int.emod_nonneg x (by omega)
  have hm1 : x % W < W := Int.emod_lt_of_pos x hW
  constructor
  · intro hk
    rw [← hk]
    constructor
    · nlinarith
    · nlinarith
  · rintro ⟨hl, hr⟩
    by_contra hne
    rcases lt_or_gt_of_ne hne with hlt | hgt
    · have h1 : x / W + 1 ≤ k := by omega
      have h2 : (x / W + 1) * W ≤ k * W := by nlinarith
      nlinarith
    · have h1 : k + 1 ≤ x / W := by omega
      have h2 : (k + 1) * W ≤ (x / W) * W := by nlinarith
      nlinarith

theorem arcsin_deg_le (m : ℝ) : Real.arcsin m * 180 / Real.pi ≤ 90 := by
  have hpi := Real.pi_pos
  have h1 := Real.arcsin_le_pi_div_two m
  rw [div_le_iff₀ hpi]
  nlinarith

theorem neg_le_arcsin_deg (m : ℝ) : -90 ≤ Real.arcsin m * 180 / Real.pi := by
  have hpi := Real.pi_pos
  have h1 := Real.neg_pi_div_two_le_arcsin m
  rw [le_div_iff₀ hpi]
  nlinarith

theorem clampEl_nonneg (o : Option ℝ) : 0 ≤ clampEl o := by
  cases o with
  | none => simp [clampEl]
  | some v =>
    simp only [clampEl]
    split
    · linarith
    · exact le_refl 0

/-- Line 41 raises `IndexError` on a series too short to index. -/
theorem avg_el_raw_short (TIME : List ℤ) (lat lon : ℝ) (tz : ℚ) (REF : String)
    (h : TIME.length < 2) :
    AVG_EL_raw TIME lat lon tz REF = .error (.indexError "index out of range") := by
  match TIME with
  | [] => rfl
  | [a] => rfl
  | a :: b :: l => simp [List.length] at h; omega

theorem elVals_eq_map_clamp (TIME : List ℤ) (lat lon : ℝ) (tz : ℚ) (REF : String) :
    elVals (AVG_EL TIME lat lon tz REF) =
      (rawVals (AVG_EL_raw TIME lat lon tz REF)).map clampEl := by
  unfold AVG_EL elVals rawVals okOrNil
  cases hr : AVG_EL_raw TIME lat lon tz REF with
  | ok l => simp [Except.map]
  | error e => simp [Except.map]

/-- Every non-`NaN` value of line 66's series is an inverse sine scaled to
degrees, hence inside [-90, 90]. -/
theorem rawVals_shape (TIME : List ℤ) (lat lon : ℝ) (tz : ℚ) (REF : String)
    (o : Option ℝ) (ho : o ∈ rawVals (AVG_EL_raw TIME lat lon tz REF)) :
    o = none ∨ ∃ m, o = some (Real.arcsin m * 180 / Real.pi) := by
  by_cases h2 : 2 ≤ TIME.length
  · rw [avg_el_raw_eq_core TIME lat lon tz REF h2] at ho
    unfold AVG_EL_core at ho
    by_cases hREF : REF = "END" ∨ REF = "MID"
    · rw [if_pos hREF] at ho
      by_cases hw : tdSeconds (TIME.getD 1 0 - TIME.getD 0 0) = 0
      · rw [if_pos hw] at ho
        simp [rawVals, okOrNil] at ho
      · rw [if_neg hw] at ho
        simp only [rawVals, okOrNil, List.map_map, List.mem_map] at ho
        obtain ⟨p, _, hp⟩ := ho
        cases hsnd : p.2 with
        | none =>
          left
          rw [← hp]
          simp [Function.comp, hsnd]
        | some m =>
          right
          refine ⟨m, ?_⟩
          rw [← hp]
          simp [Function.comp, hsnd]
    · rw [if_neg hREF] at ho
      simp [rawVals, okOrNil] at ho
  · rw [avg_el_raw_short TIME lat lon tz REF (by omega)] at ho
    simp [rawVals, okOrNil] at ho

theorem clampEl_le_90 (TIME : List ℤ) (lat lon : ℝ) (tz : ℚ) (REF : String)
    (o : Option ℝ) (ho : o ∈ rawVals (AVG_EL_raw TIME lat lon tz REF)) :
    clampEl o ≤ 90 := by
  rcases rawVals_shape TIME lat lon tz REF o ho with hn | ⟨m, hm⟩
  · rw [hn]
    simp [clampEl]
  · rw [hm]
    simp only [clampEl]
    split
    · exact arcsin_deg_le m
    · norm_num

theorem NS_PER_SEC_pos : (0 : ℤ) < NS_PER_SEC := by decide

theorem binStart_eq (a W : ℤ) :
    binStart a W = dayFloor a + ((a - dayFloor a) / W) * W := by
  have hd : W * ((a - dayFloor a) / W) + (a - dayFloor a) % W
      = a - dayFloor a := Int.ediv_add_emod _ _
  unfold binStart
  linarith

theorem binCount_eq (a b W : ℤ) (hW : W ≠ 0) :
    binCount a b W =
      (b - dayFloor a) / W - (a - dayFloor a) / W + 1 := by
  unfold binCount
  rw [binStart_eq a W]
  have hb : b - (dayFloor a + (a - dayFloor a) / W * W)
      = (b - dayFloor a) + (-((a - dayFloor a) / W)) * W := by ring
  rw [hb, Int.add_mul_ediv_right _ _ hW]
  ring

/-- The pandas anchored-binning of `resampleMeanLeft` is the floor-keyed
grouping of the spec description, for a positive rule. -/
theorem resample_eq_specGroup (pts : List ℤ) (f : ℤ → ℝ) (wS : ℤ)
    (hw : 0 < wS) :
    resampleMeanLeft pts f wS = specGroupMean pts f (wS * NS_PER_SEC) := by
  cases pts with
  | nil => rfl
  | cons a l =>
    set W := wS * NS_PER_SEC with hWdef
    have hW : 0 < W := by
      have := NS_PER_SEC_pos
      positivity
    have hlast : (a :: l).getLast? = some ((a :: l).getLast (by simp)) :=
      List.getLast?_eq_getLast _ _
    set b := (a :: l).getLast (by simp) with hbdef
    unfold resampleMeanLeft specGroupMean
    rw [hlast]
    simp only [List.head?_cons]
    set org := dayFloor a with horg
    set k0 := (a - org) / W with hk0
    set kN := (b - org) / W with hkN
    have hstart : binStart a W = org + k0 * W := binStart_eq a W
    have hcount : binCount a b W = kN - k0 + 1 := binCount_eq a b W (by omega)
    unfold binLabels
    rw [hstart, hcount, List.map_map]
    apply List.map_congr_left
    intro j hj
    simp only [Function.comp]
    have hlab : org + k0 * W + (j : ℤ) * W = org + (k0 + (j : ℤ)) * W := by ring
    have hfilt : (a :: l).filter
          (fun t => decide (org + (k0 + (j : ℤ)) * W ≤ t) &&
            decide (t < org + (k0 + (j : ℤ)) * W + W)) =
        (a :: l).filter (fun t => decide ((t - org) / W = k0 + (j : ℤ))) := by
      apply List.filter_congr
      intro t _
      rw [← Bool.decide_and, decide_eq_decide]
      rw [ediv_eq_iff_of_pos (t - org) W (k0 + (j : ℤ)) hW]
      have hexp : (k0 + (j : ℤ) + 1) * W = (k0 + (j : ℤ)) * W + W := by ring
      rw [hexp]
      constructor
      · rintro ⟨hl2, hr2⟩
        exact ⟨by linarith, by linarith⟩
      · rintro ⟨hl2, hr2⟩
        exact ⟨by linarith, by linarith⟩
    unfold binMean
    rw [hlab, hfilt]

theorem getD_map_clamp (l : List (Option ℝ)) (i : ℕ) :
    (l.map clampEl).getD i 0 = clampEl (l.getD i none) := by
  by_cases h : i < l.length
  · rw [List.getD_eq_getElem _ _ (by simpa using h), List.getD_eq_getElem l _ h,
      List.getElem_map]
  · rw [List.getD_eq_default _ _ (by simpa using (by omega : l.length ≤ i)),
      List.getD_eq_default _ _ (by omega)]
    simp [clampEl]

/-- Bounds of every element of the clamped output, shared by C3 and C7. -/
theorem elVals_getD_bounds (TIME : List ℤ) (lat lon : ℝ) (tz : ℚ)
    (REF : String) (i : ℕ) :
    0 ≤ (elVals (AVG_EL TIME lat lon tz REF)).getD i 0 ∧
    (elVals (AVG_EL TIME lat lon tz REF)).getD i 0 ≤ 90 := by
  have hc : (elVals (AVG_EL TIME lat lon tz REF)).getD i 0 =
      clampEl ((rawVals (AVG_EL_raw TIME lat lon tz REF)).getD i none) := by
    rw [elVals_eq_map_clamp, getD_map_clamp]
  constructor
  · rw [hc]
    exact clampEl_nonneg _
  · rw [hc]
    by_cases h : i < (rawVals (AVG_EL_raw TIME lat lon tz REF)).length
    · refine clampEl_le_90 TIME lat lon tz REF _ ?_
      rw [List.getD_eq_getElem _ _ h]
      exact List.getElem_mem h
    · rw [List.getD_eq_default _ _ (by omega)]
      simp [clampEl]

theorem binStart_le (a W : ℤ) (hW : W ≠ 0) : binStart a W ≤ a := by
  have := Int.emod_nonneg (a - dayFloor a) hW
  unfold binStart
  omega

theorem lt_binStart_add (a W : ℤ) (hW : 0 < W) : a < binStart a W + W := by
  have := Int.emod_lt_of_pos (a - dayFloor a) hW
  unfold binStart
  omega

theorem binLabels_pairwise (a b W : ℤ) (hW : 0 < W) :
    List.Pairwise (fun x1 x2 => x1 < x2) (binLabels a b W) := by
  unfold binLabels
  refine List.Pairwise.map _ ?_ (List.pairwise_lt_range _)
  intro j k hjk
  have hc : (j : ℤ) < (k : ℤ) := by exact_mod_cast hjk
  nlinarith

theorem binLabels_mem_bounds (a b W lo : ℤ) (hW : 0 < W) (_hab : a ≤ b)
    (hmem : lo ∈ binLabels a b W) : binStart a W ≤ lo ∧ lo ≤ b := by
  unfold binLabels at hmem
  obtain ⟨j, hj, rfl⟩ := List.mem_map.mp hmem
  rw [List.mem_range] at hj
  have hjc : (j : ℤ) < binCount a b W := by omega
  have hj0 : (0 : ℤ) ≤ (j : ℤ) := Int.natCast_nonneg j
  constructor
  · nlinarith
  · have hcount : binCount a b W = (b - binStart a W) / W + 1 := rfl
    have hdm := Int.ediv_mul_le (b - binStart a W) (by omega : W ≠ 0)
    have hj1 : (j : ℤ) ≤ (b - binStart a W) / W := by omega
    have hj2 : (j : ℤ) * W ≤ ((b - binStart a W) / W) * W := by nlinarith
    nlinarith

theorem date_range5_span (tb : ℤ) (M : ℕ) :
    (tb + (M : ℤ) * FIVE_MIN_NS - tb) / FIVE_MIN_NS = (M : ℤ) := by
  have h : tb + (M : ℤ) * FIVE_MIN_NS - tb = (M : ℤ) * FIVE_MIN_NS := by ring
  rw [h, Int.mul_ediv_cancel _ (by norm_num [FIVE_MIN_NS, NS_PER_SEC])]

theorem date_range5_head (tb : ℤ) (M : ℕ) :
    (date_range tb (tb + (M : ℤ) * FIVE_MIN_NS) FIVE_MIN_NS).head? = some tb := by
  unfold date_range
  rw [date_range5_span]
  rw [List.head?_eq_getElem?, List.getElem?_map, List.getElem?_range (by omega)]
  simp

theorem date_range5_last (tb : ℤ) (M : ℕ) :
    (date_range tb (tb + (M : ℤ) * FIVE_MIN_NS) FIVE_MIN_NS).getLast? =
      some (tb + (M : ℤ) * FIVE_MIN_NS) := by
  unfold date_range
  rw [date_range5_span]
  rw [List.getLast?_eq_getElem?, List.length_map, List.length_range]
  have hM : ((M : ℤ) + 1).toNat - 1 = M := by omega
  rw [hM, List.getElem?_map, List.getElem?_range (by omega)]
  simp

theorem mem_date_range5 (s e t : ℤ) (i : ℤ) (h0 : 0 ≤ i)
    (h1 : i ≤ (e - s) / FIVE_MIN_NS) (ht : t = s + i * FIVE_MIN_NS) :
    t ∈ date_range s e FIVE_MIN_NS := by
  unfold date_range
  refine List.mem_map.mpr ⟨i.toNat, List.mem_range.mpr ?_, ?_⟩
  · omega
  · rw [ht]
    congr 1
    congr 1
    omega

/-- With a 3-hour rule over a 5-minute grid, every produced bin holds at
least one fine sample. -/
theorem bin3h_nonempty (tb : ℤ) (M : ℕ) (lo : ℤ)
    (hlo1 : binStart tb (10800 * NS_PER_SEC) ≤ lo)
    (hlo2 : lo ≤ tb + (M : ℤ) * FIVE_MIN_NS) :
    ∃ t ∈ date_range tb (tb + (M : ℤ) * FIVE_MIN_NS) FIVE_MIN_NS,
      lo ≤ t ∧ t < lo + 10800 * NS_PER_SEC := by
  unfold binStart dayFloor NS_PER_DAY at hlo1
  simp only [NS_PER_SEC, FIVE_MIN_NS] at hlo1 hlo2
  by_cases hc : lo ≤ tb
  · refine ⟨tb, mem_date_range5 _ _ tb 0 (le_refl 0) ?_ (by ring), hc, ?_⟩
    · rw [date_range5_span]
      exact Int.natCast_nonneg M
    · simp only [NS_PER_SEC]
      omega
  · refine ⟨tb + ((lo - tb + 300 * 1000000000 - 1) / (300 * 1000000000)) *
        (300 * 1000000000),
      mem_date_range5 _ _ _ ((lo - tb + 300 * 1000000000 - 1) / (300 * 1000000000))
        ?_ ?_ ?_, ?_, ?_⟩
    · omega
    · rw [date_range5_span]
      omega
    · simp only [FIVE_MIN_NS, NS_PER_SEC]
    · omega
    · simp only [NS_PER_SEC]
      omega

theorem resample_eq_of (pts : List ℤ) (f : ℤ → ℝ) (wS a b : ℤ)
    (hh : pts.head? = some a) (hl : pts.getLast? = some b) :
    resampleMeanLeft pts f wS =
      (binLabels a b (wS * NS_PER_SEC)).map
        (fun lo => (lo, binMean pts f lo (wS * NS_PER_SEC))) := by
  unfold resampleMeanLeft
  rw [hh, hl]

theorem tdSeconds_3h : tdSeconds (10800 * NS_PER_SEC) = 10800 := by decide

theorem prog3h_length (t0 : ℤ) (N : ℕ) : (prog3h t0 N).length = N := by
  simp [prog3h]

theorem prog3h_getD (t0 : ℤ) (N k : ℕ) (hk : k < N) :
    (prog3h t0 N).getD k 0 = t0 + (k : ℤ) * (10800 * NS_PER_SEC) := by
  unfold prog3h
  rw [List.getD_eq_getElem _ _ (by simpa using hk), List.getElem_map,
    List.getElem_range]

/-- Closed form of the raw pipeline on a uniform 3-hour series. -/
theorem avg_el_raw_prog3h (t0 : ℤ) (n : ℕ) (lat lon : ℝ) (tz : ℚ)
    (REF : String) (hREF : REF = "END" ∨ REF = "MID") :
    AVG_EL_raw (prog3h t0 (n + 2)) lat lon tz REF =
      .ok ((resampleMeanLeft
          (date_range (t0 - refShiftVal REF (10800 * NS_PER_SEC))
            (t0 - refShiftVal REF (10800 * NS_PER_SEC) +
              ((36 * (n + 1) : ℕ) : ℤ) * FIVE_MIN_NS)
            FIVE_MIN_NS)
          (sinElAt lat lon tz) 10800).map
        (fun p => (p.1, p.2.map (fun m => Real.arcsin m * 180 / Real.pi)))) := by
  have hlen : (prog3h t0 (n + 2)).length = n + 2 := prog3h_length t0 (n + 2)
  rw [avg_el_raw_eq_core _ _ _ _ _ (by omega), hlen]
  have hi1 : n + 2 - 1 = n + 1 := by omega
  rw [hi1, prog3h_getD t0 (n + 2) 0 (by omega), prog3h_getD t0 (n + 2) 1 (by omega),
    prog3h_getD t0 (n + 2) (n + 1) (by omega)]
  simp only [AVG_EL_core, refShiftVal]
  rw [if_pos hREF]
  have hdt : t0 + ((1 : ℕ) : ℤ) * (10800 * NS_PER_SEC) -
      (t0 + ((0 : ℕ) : ℤ) * (10800 * NS_PER_SEC)) = 10800 * NS_PER_SEC := by
    push_cast
    ring
  rw [hdt, tdSeconds_3h, if_neg (by norm_num)]
  have hbeg : t0 + ((0 : ℕ) : ℤ) * (10800 * NS_PER_SEC) -
      (if REF = "END" then 10800 * NS_PER_SEC else tdHalf (10800 * NS_PER_SEC)) =
      t0 - (if REF = "END" then 10800 * NS_PER_SEC else tdHalf (10800 * NS_PER_SEC)) := by
    push_cast
    ring
  have hend : t0 + (((n : ℕ) + 1 : ℕ) : ℤ) * (10800 * NS_PER_SEC) -
      (if REF = "END" then 10800 * NS_PER_SEC else tdHalf (10800 * NS_PER_SEC)) =
      t0 - (if REF = "END" then 10800 * NS_PER_SEC else tdHalf (10800 * NS_PER_SEC)) +
        ((36 * (n + 1) : ℕ) : ℤ) * FIVE_MIN_NS := by
    push_cast
    simp only [FIVE_MIN_NS, NS_PER_SEC]
    ring
  rw [hbeg, hend]

theorem resample3h_pairwise (tb : ℤ) (M : ℕ) (f : ℤ → ℝ) :
    List.Pairwise (fun x1 x2 => x1 < x2)
      ((resampleMeanLeft (date_range tb (tb + (M : ℤ) * FIVE_MIN_NS) FIVE_MIN_NS)
        f 10800).map Prod.fst) := by
  rw [resample_eq_of _ _ _ _ _ (date_range5_head tb M) (date_range5_last tb M),
    List.map_map]
  have hp := binLabels_pairwise tb (tb + (M : ℤ) * FIVE_MIN_NS)
    (10800 * NS_PER_SEC) (by norm_num [NS_PER_SEC])
  rw [show (Prod.fst ∘ fun lo => (lo, binMean
      (date_range tb (tb + (M : ℤ) * FIVE_MIN_NS) FIVE_MIN_NS) f lo
      (10800 * NS_PER_SEC))) = id from funext (fun x => rfl), List.map_id]
  exact hp

theorem resample3h_no_nan (tb : ℤ) (M : ℕ) (f : ℤ → ℝ) (p : ℤ × Option ℝ)
    (hp : p ∈ resampleMeanLeft (date_range tb (tb + (M : ℤ) * FIVE_MIN_NS)
      FIVE_MIN_NS) f 10800) :
    p.2 ≠ none := by
  rw [resample_eq_of _ _ _ _ _ (date_range5_head tb M) (date_range5_last tb M)] at hp
  obtain ⟨lo, hlo, rfl⟩ := List.mem_map.mp hp
  have hW : (0 : ℤ) < 10800 * NS_PER_SEC := by norm_num [NS_PER_SEC]
  have hab : tb ≤ tb + (M : ℤ) * FIVE_MIN_NS := by
    have h0 : (0 : ℤ) ≤ (M : ℤ) * FIVE_MIN_NS :=
      mul_nonneg (Int.natCast_nonneg M) (by norm_num [FIVE_MIN_NS, NS_PER_SEC])
    omega
  obtain ⟨h1, h2⟩ := binLabels_mem_bounds tb (tb + (M : ℤ) * FIVE_MIN_NS)
    (10800 * NS_PER_SEC) lo hW hab hlo
  obtain ⟨t, ht, hta, htb⟩ := bin3h_nonempty tb M lo h1 h2
  simp only [binMean]
  have hmem : t ∈ (date_range tb (tb + (M : ℤ) * FIVE_MIN_NS)
      FIVE_MIN_NS).filter
      (fun t => decide (lo ≤ t) && decide (t < lo + 10800 * NS_PER_SEC)) :=
    List.mem_filter.mpr ⟨ht, by simp [hta, htb]⟩
  have hne : ¬ (((date_range tb (tb + (M : ℤ) * FIVE_MIN_NS)
      FIVE_MIN_NS).filter
      (fun t => decide (lo ≤ t) && decide (t < lo + 10800 * NS_PER_SEC))).isEmpty
        = true) := by
    intro habs
    rw [List.isEmpty_iff] at habs
    rw [habs] at hmem
    exact absurd hmem (List.not_mem_nil t)
  rw [if_neg hne]
  simp

theorem map_fst_arc_clamp (l : List (ℤ × Option ℝ)) :
    ((l.map (fun p => (p.1, p.2.map (fun m => Real.arcsin m * 180 / Real.pi)))).map
      (fun p => (p.1, clampEl p.2))).map Prod.fst = l.map Prod.fst := by
  rw [List.map_map, List.map_map]
  exact List.map_congr_left (fun p _ => rfl)

theorem elVals_of_raw_ok (TIME : List ℤ) (lat lon : ℝ) (tz : ℚ) (REF : String)
    (l : List (ℤ × Option ℝ)) (h : AVG_EL_raw TIME lat lon tz REF = .ok l) :
    elVals (AVG_EL TIME lat lon tz REF) =
      ((l.map (fun p => (p.1, clampEl p.2))).map Prod.snd) := by
  unfold AVG_EL elVals okOrNil
  rw [h]
  rfl

/-!  ## Claim theorems  -/

/-- C1.  The spec claims any `REF` outside {BEG, MID, END} raises an error
with message "Unrecognized REF option".  The code does reject `'FOO'`, but
with the `TypeError` produced by evaluating `'BEG' & REF` inside the guard
of line 46 — the `ValueError` of line 47 is unreachable, so the error does
not carry the claimed message. -/
theorem c1_foo_raises_typeerror_not_valueerror :
    AVG_EL [0, 10800 * NS_PER_SEC] 0 0 0 "FOO" =
      .error (.typeError "unsupported operand type(s) for &: str and str") ∧
    AVG_EL [0, 10800 * NS_PER_SEC] 0 0 0 "FOO" ≠
      .error (.valueError "Unrecognized REF option") := by
  constructor
  · rfl
  · intro h
    rw [show AVG_EL [0, 10800 * NS_PER_SEC] 0 0 0 "FOO" =
      .error (.typeError "unsupported operand type(s) for &: str and str") from rfl] at h
    exact absurd (Except.error.inj h) (by decide)

/-- C2.  The `'END'` and `'MID'` branches do shift every timestamp by the
step and by half the step, as claimed.  But the claim that `REF='BEG'`
completes without raising fails: in the code `'BEG'` falls through to the
`elif` guard of line 46, which raises `TypeError` when it evaluates
`'BEG' & REF`, so a `BEG` call never completes. -/
theorem c2_beg_raises :
    (∀ (TIME : List ℤ) (dt : ℤ),
      refShiftE TIME dt "END" = .ok (TIME.map (fun t => t - dt)) ∧
      refShiftE TIME dt "MID" = .ok (TIME.map (fun t => t - tdHalf dt))) ∧
    AVG_EL [0, 10800 * NS_PER_SEC] 0 0 0 "BEG" =
      .error (.typeError "unsupported operand type(s) for &: str and str") :=
  ⟨fun _ _ => ⟨rfl, rfl⟩, rfl⟩

/-- C4.  A time series of length < 2 is rejected: `dt = TIME[1] - TIME[0]`
on line 41 raises `IndexError` before anything is computed, for every
`REF` and site, so the call never silently produces output. -/
theorem c4_short_series_rejected (TIME : List ℤ) (lat lon : ℝ) (tz : ℚ)
    (REF : String) (h : TIME.length < 2) :
    AVG_EL TIME lat lon tz REF = .error (.indexError "index out of range") := by
  match TIME with
  | [] => rfl
  | [a] => rfl
  | a :: b :: l => simp [List.length] at h; omega

/-- Witness for C4 at the concrete empty series. -/
theorem c4_short_series_rejected_witness :
    AVG_EL ([] : List ℤ) 0 0 0 "BEG" = .error (.indexError "index out of range") :=
  c4_short_series_rejected [] 0 0 0 "BEG" (by decide)

/-- C8.  Determinism: `AVG_EL` is a pure function of its five arguments —
two calls with identical inputs return identical results. -/
theorem c8_deterministic (TIME TIME2 : List ℤ) (lat lat2 lon lon2 : ℝ)
    (tz tz2 : ℚ) (REF REF2 : String) (hT : TIME = TIME2) (hlat : lat = lat2)
    (hlon : lon = lon2) (htz : tz = tz2) (hREF : REF = REF2) :
    AVG_EL TIME lat lon tz REF = AVG_EL TIME2 lat2 lon2 tz2 REF2 := by
  rw [hT, hlat, hlon, htz, hREF]

/-- Witness for C8 at a concrete input. -/
theorem c8_deterministic_witness :
    AVG_EL [0, 10800 * NS_PER_SEC] 1 2 3 "END" =
      AVG_EL [0, 10800 * NS_PER_SEC] 1 2 3 "END" :=
  c8_deterministic [0, 10800 * NS_PER_SEC] [0, 10800 * NS_PER_SEC] 1 1 2 2 3 3
    "END" "END" rfl rfl rfl rfl rfl

/-- C3.  On every run that returns, each element of the returned series is
the clamp of the corresponding pre-clamp value — so any non-positive (or
`NaN`) averaged angle becomes exactly `0` — and every element lies in
[0, 90] degrees. -/
theorem c3_output_in_0_90 (TIME : List ℤ) (lat lon : ℝ) (tz : ℚ)
    (REF : String) (i : ℕ) :
    (elVals (AVG_EL TIME lat lon tz REF)).getD i 0 =
      clampEl ((rawVals (AVG_EL_raw TIME lat lon tz REF)).getD i none) ∧
    0 ≤ (elVals (AVG_EL TIME lat lon tz REF)).getD i 0 ∧
    (elVals (AVG_EL TIME lat lon tz REF)).getD i 0 ≤ 90 := by
  have hc : (elVals (AVG_EL TIME lat lon tz REF)).getD i 0 =
      clampEl ((rawVals (AVG_EL_raw TIME lat lon tz REF)).getD i none) := by
    rw [elVals_eq_map_clamp, getD_map_clamp]
  refine ⟨hc, ?_, ?_⟩
  · rw [hc]
    exact clampEl_nonneg _
  · rw [hc]
    by_cases h : i < (rawVals (AVG_EL_raw TIME lat lon tz REF)).length
    · refine clampEl_le_90 TIME lat lon tz REF _ ?_
      rw [List.getD_eq_getElem _ _ h]
      exact List.getElem_mem h
    · rw [List.getD_eq_default _ _ (by omega)]
      simp [clampEl]

/-- C5.  The claimed `BEG`/`END` reference-convention equivalence fails on
the code: with the time series shifted forward by one step and `REF='END'`
the call returns a series, while the unshifted call with `REF='BEG'`
raises `TypeError` (the line 46 guard bug), so the two results are not
identical. -/
theorem c5_ref_equivalence_fails :
    AVG_EL [20 * NS_PER_DAY + 10800 * NS_PER_SEC, 20 * NS_PER_DAY + 21600 * NS_PER_SEC]
        0 0 0 "END" ≠
      AVG_EL [20 * NS_PER_DAY, 20 * NS_PER_DAY + 10800 * NS_PER_SEC] 0 0 0 "BEG" ∧
    AVG_EL [20 * NS_PER_DAY, 20 * NS_PER_DAY + 10800 * NS_PER_SEC] 0 0 0 "BEG" =
      .error (.typeError "unsupported operand type(s) for &: str and str") := by
  constructor
  · intro hcontra
    have h1 : isOkB (AVG_EL [20 * NS_PER_DAY + 10800 * NS_PER_SEC,
        20 * NS_PER_DAY + 21600 * NS_PER_SEC] 0 0 0 "END") = true := rfl
    have h2 : isOkB (AVG_EL [20 * NS_PER_DAY, 20 * NS_PER_DAY + 10800 * NS_PER_SEC]
        0 0 0 "BEG") = false := rfl
    rw [hcontra, h2] at h1
    exact Bool.noConfusion h1
  · rfl

/-- C10.  The step used for the shift and the bin width is `TIME[1]-TIME[0]`
alone, and the fine grid spans `TIME[0]..TIME[-1]`: two series of length
≥ 2 agreeing on their first, second and last timestamps give identical
results, whatever the intermediate spacing — non-uniform spacing is
silently ignored. -/
theorem c10_only_first_second_last_matter (TIME TIME2 : List ℤ)
    (lat lon : ℝ) (tz : ℚ) (REF : String)
    (h : 2 ≤ TIME.length) (h2 : 2 ≤ TIME2.length)
    (e0 : TIME.getD 0 0 = TIME2.getD 0 0)
    (e1 : TIME.getD 1 0 = TIME2.getD 1 0)
    (eL : TIME.getD (TIME.length - 1) 0 = TIME2.getD (TIME2.length - 1) 0) :
    AVG_EL TIME lat lon tz REF = AVG_EL TIME2 lat lon tz REF := by
  unfold AVG_EL
  rw [avg_el_raw_eq_core TIME lat lon tz REF h,
    avg_el_raw_eq_core TIME2 lat lon tz REF h2, e0, e1, eL]

/-- Counterexample to C6 as stated: with a 25-hour step (`dt.seconds` =
3600), the code resamples into 26 one-hour bins, not the 2 bins of the
original time step the claim describes, so the returned series is not the
claimed formula. -/
theorem c6_stated_counterexample :
    isOkB (AVG_EL_raw [10 * NS_PER_DAY, 10 * NS_PER_DAY + 90000 * NS_PER_SEC]
        0 0 0 "END") = true ∧
    (okOrNil (AVG_EL_raw [10 * NS_PER_DAY, 10 * NS_PER_DAY + 90000 * NS_PER_SEC]
        0 0 0 "END")).length = 26 ∧
    (claimC6stated [10 * NS_PER_DAY, 10 * NS_PER_DAY + 90000 * NS_PER_SEC]
        0 0 0 "END").length = 2 ∧
    okOrNil (AVG_EL_raw [10 * NS_PER_DAY, 10 * NS_PER_DAY + 90000 * NS_PER_SEC]
        0 0 0 "END") ≠
      claimC6stated [10 * NS_PER_DAY, 10 * NS_PER_DAY + 90000 * NS_PER_SEC]
        0 0 0 "END" := by
  have h26 : (okOrNil (AVG_EL_raw [10 * NS_PER_DAY,
      10 * NS_PER_DAY + 90000 * NS_PER_SEC] 0 0 0 "END")).length = 26 := rfl
  have h2 : (claimC6stated [10 * NS_PER_DAY, 10 * NS_PER_DAY + 90000 * NS_PER_SEC]
      0 0 0 "END").length = 2 := rfl
  refine ⟨rfl, h26, h2, ?_⟩
  intro hcontra
  have hl := congrArg List.length hcontra
  rw [h26, h2] at hl
  exact absurd hl (by decide)

/-- C6 amended: on every returning run (series of length ≥ 2, `REF` one of
`'END'`/`'MID'`, nonzero `dt.seconds`), the pre-clamp output is exactly the
claimed arcsin-of-binned-mean-of-sines formula, except that the bins have
width `dt.seconds` — the seconds-of-day field of the step, equal to the
original step only when the step is shorter than one day. -/
theorem c6_amended_formula (TIME : List ℤ) (lat lon : ℝ) (tz : ℚ)
    (REF : String) (h2 : 2 ≤ TIME.length) (hREF : REF = "END" ∨ REF = "MID")
    (hw : tdSeconds (TIME.getD 1 0 - TIME.getD 0 0) ≠ 0) :
    AVG_EL_raw TIME lat lon tz REF =
      .ok (claimC6amended TIME lat lon tz REF) := by
  have hpos : 0 < tdSeconds (TIME.getD 1 0 - TIME.getD 0 0) := by
    have h0 : 0 ≤ tdSeconds (TIME.getD 1 0 - TIME.getD 0 0) := by
      unfold tdSeconds
      exact Int.emod_nonneg _ (by norm_num)
    omega
  rw [avg_el_raw_eq_core TIME lat lon tz REF h2]
  simp only [AVG_EL_core, claimC6amended, claimC6formula]
  rw [if_pos hREF, if_neg hw]
  have hs : (if REF = "END" then TIME.getD 1 0 - TIME.getD 0 0
        else if REF = "MID" then tdHalf (TIME.getD 1 0 - TIME.getD 0 0) else 0) =
      (if REF = "END" then TIME.getD 1 0 - TIME.getD 0 0
        else tdHalf (TIME.getD 1 0 - TIME.getD 0 0)) := by
    rcases hREF with h | h <;> simp [h]
  rw [hs, resample_eq_specGroup _ (sinElAt lat lon tz) _ hpos]

/-- Witness for C6 amended at a concrete 3-hour two-point series. -/
theorem c6_amended_formula_witness :
    AVG_EL_raw [0, 10800 * NS_PER_SEC] 0 0 0 "END" =
      .ok (claimC6amended [0, 10800 * NS_PER_SEC] 0 0 0 "END") :=
  c6_amended_formula [0, 10800 * NS_PER_SEC] 0 0 0 "END" (by decide)
    (Or.inl rfl) (by decide)

/-- C9.  Line 64 derives the resampling rule from `dt.seconds` alone: for
any step of a whole day or more the rule differs from the step itself, and
concretely a 25-hour-step series is grouped into 26 one-hour bins spaced
3600 s apart rather than bins of the 25-hour step. -/
theorem c9_rule_from_seconds_field (dt : ℤ) (hdt : NS_PER_DAY ≤ dt) :
    tdSeconds dt * NS_PER_SEC ≠ dt ∧
    okLabels (AVG_EL_raw [20 * NS_PER_DAY, 20 * NS_PER_DAY + 90000 * NS_PER_SEC]
        0 0 0 "END") =
      (List.range 26).map
        (fun (k : ℕ) => 1638000 * NS_PER_SEC + (k : ℤ) * (3600 * NS_PER_SEC)) := by
  constructor
  · intro heq
    unfold tdSeconds NS_PER_SEC at heq
    unfold NS_PER_DAY NS_PER_SEC at hdt
    omega
  · rfl

/-- Witness for C9 at the concrete 25-hour step. -/
theorem c9_rule_from_seconds_field_witness :
    tdSeconds (90000 * NS_PER_SEC) * NS_PER_SEC ≠ 90000 * NS_PER_SEC :=
  (c9_rule_from_seconds_field (90000 * NS_PER_SEC)
    (by norm_num [NS_PER_DAY, NS_PER_SEC])).1

/-- C7.  On a uniform 3-hour series of any length ≥ 2 (in particular a
multi-year one), every returning `REF` yields a series whose index is
strictly increasing (hence unique and monotonic), whose pre-clamp values
contain no `NaN` (every bin holds a 5-minute sample), and whose values all
lie within [0, 90]. -/
theorem c7_multiyear_3h (t0 : ℤ) (N : ℕ) (lat lon : ℝ) (tz : ℚ)
    (REF : String) (hN : 2 ≤ N) (hREF : REF = "END" ∨ REF = "MID") :
    ∃ out, AVG_EL (prog3h t0 N) lat lon tz REF = .ok out ∧
      List.Pairwise (fun x1 x2 => x1 < x2) (out.map Prod.fst) ∧
      (∀ o ∈ rawVals (AVG_EL_raw (prog3h t0 N) lat lon tz REF), o ≠ none) ∧
      ∀ i : ℕ, 0 ≤ (out.map Prod.snd).getD i 0 ∧
        (out.map Prod.snd).getD i 0 ≤ 90 := by
  obtain ⟨n, rfl⟩ : ∃ n, N = n + 2 := ⟨N - 2, by omega⟩
  have hraw := avg_el_raw_prog3h t0 n lat lon tz REF hREF
  refine ⟨((resampleMeanLeft
      (date_range (t0 - refShiftVal REF (10800 * NS_PER_SEC))
        (t0 - refShiftVal REF (10800 * NS_PER_SEC) +
          ((36 * (n + 1) : ℕ) : ℤ) * FIVE_MIN_NS) FIVE_MIN_NS)
      (sinElAt lat lon tz) 10800).map
        (fun p => (p.1, p.2.map (fun m => Real.arcsin m * 180 / Real.pi)))).map
        (fun p => (p.1, clampEl p.2)), ?_, ?_, ?_, ?_⟩
  · unfold AVG_EL
    rw [hraw]
    rfl
  · rw [map_fst_arc_clamp]
    exact resample3h_pairwise (t0 - refShiftVal REF (10800 * NS_PER_SEC))
      (36 * (n + 1)) (sinElAt lat lon tz)
  · intro o ho
    rw [hraw] at ho
    simp only [rawVals, okOrNil, List.map_map, List.mem_map] at ho
    obtain ⟨p, hp, rfl⟩ := ho
    have hnn := resample3h_no_nan (t0 - refShiftVal REF (10800 * NS_PER_SEC))
      (36 * (n + 1)) (sinElAt lat lon tz) p hp
    cases hsnd : p.2 with
    | none => exact absurd hsnd hnn
    | some m => simp [Function.comp, hsnd]
  · intro i
    have hb := elVals_getD_bounds (prog3h t0 (n + 2)) lat lon tz REF i
    rw [elVals_of_raw_ok _ _ _ _ _ _ hraw] at hb
    exact hb

/-- Witness for C7 at a concrete two-point 3-hour series. -/
theorem c7_multiyear_3h_witness :
    ∃ out, AVG_EL (prog3h 0 2) 0 0 0 "END" = .ok out ∧
      List.Pairwise (fun x1 x2 => x1 < x2) (out.map Prod.fst) ∧
      (∀ o ∈ rawVals (AVG_EL_raw (prog3h 0 2) 0 0 0 "END"), o ≠ none) ∧
      ∀ i : ℕ, 0 ≤ (out.map Prod.snd).getD i 0 ∧
        (out.map Prod.snd).getD i 0 ≤ 90 :=
  c7_multiyear_3h 0 2 0 0 0 "END" (by norm_num) (Or.inl rfl)

/-- Witness for C10: a uniform 2-point series against a 4-point series with
wildly non-uniform interior spacing but the same first, second and last
timestamps. -/
theorem c10_only_first_second_last_matter_witness :
    AVG_EL [0, 10800 * NS_PER_SEC, 21600 * NS_PER_SEC] 0 0 0 "END" =
      AVG_EL [0, 10800 * NS_PER_SEC, 7, 21600 * NS_PER_SEC] 0 0 0 "END" :=
  c10_only_first_second_last_matter
    [0, 10800 * NS_PER_SEC, 21600 * NS_PER_SEC]
    [0, 10800 * NS_PER_SEC, 7, 21600 * NS_PER_SEC]
    0 0 0 "END" (by decide) (by decide) (by decide) (by decide) (by decide)

end Solargeo
